import Mathlib

/-!
Shallow embedding of `src/src/background/library/translators/tencent.js`
(the Tencent translation-provider adapter of EdgeTranslate), together with
theorems settling the specification claims about it.

Modelling conventions:
* JS objects with optional fields become structures with `Option` fields
  (`none` = the field is absent / `undefined`).
* JS `Map` built from an entry list keeps, for a duplicated key, the value
  of the last entry; lookup is modelled by `mapGet` below.
* A JS promise that can reject is modelled by an explicit result type;
  a promise that may never settle has a `pending` constructor.
* Browser APIs (tabs, cookies, audio) are external collaborators: their
  behaviour is an explicit input (environment) of the modelled functions,
  and the audio element is modelled by the trace of actions performed on it.
-/

set_option autoImplicit false

namespace Tencent

/-- Supported languages, from the `LANGUAGES` constant of `tencent.js`:
pairs of (canonical tag, provider code). -/
def LANGUAGES : List (String × String) :=
  [("auto", "auto"), ("zh-CN", "zh"), ("en", "en"), ("ja", "jp"), ("ko", "kr"),
   ("fr", "fr"), ("es", "es"), ("it", "it"), ("de", "de"), ("tr", "tr"),
   ("ru", "ru"), ("pt", "pt"), ("vi", "vi"), ("id", "id"), ("th", "th"),
   ("ms", "ms"), ("ar", "ar"), ("hi", "hi")]

/-- Lookup in a JS `Map` built with `new Map(entries)`: for a duplicated
key the last entry wins, so we search the reversed entry list. -/
def mapGet (entries : List (String × String)) (key : String) : Option String :=
  (entries.reverse.find? (fun p => p.1 == key)).map (fun p => p.2)

/-- The `LAN_TO_CODE` map of the constructor: canonical tag to provider code. -/
def lanToCode (lan : String) : Option String :=
  mapGet LANGUAGES lan

/-- The `CODE_TO_LAN` map of the constructor: provider code back to canonical
tag, built from `LANGUAGES.map(([lan, code]) => [code, lan])`. -/
def codeToLan (code : String) : Option String :=
  mapGet (LANGUAGES.map (fun p => (p.2, p.1))) code

/-- The `supportedLanguages()` method: the key set of `LAN_TO_CODE`
(as a list; the keys of `LANGUAGES` are pairwise distinct). -/
def supportedLanguages : List String :=
  LANGUAGES.map Prod.fst

/-- C2: for every canonical tag in the supported set other than `"auto"`,
mapping through `LAN_TO_CODE` and back through `CODE_TO_LAN` returns the
same tag. -/
theorem c2_language_roundtrip (lan : String)
    (h1 : lan ∈ supportedLanguages) (h2 : lan ≠ "auto") :
    (lanToCode lan).bind codeToLan = some lan := by
  simp only [supportedLanguages, LANGUAGES, List.map_cons, List.map_nil,
    List.mem_cons, List.not_mem_nil, or_false] at h1
  rcases h1 with rfl | rfl | rfl | rfl | rfl | rfl | rfl | rfl | rfl | rfl |
    rfl | rfl | rfl | rfl | rfl | rfl | rfl | rfl
  · exact absurd rfl h2
  all_goals rfl

/-- Witness for C2 at the concrete tag `"en"`. -/
theorem c2_language_roundtrip_witness :
    (lanToCode "en").bind codeToLan = some "en" :=
  c2_language_roundtrip "en" (by simp [supportedLanguages, LANGUAGES]) (by decide)

/-! Provider response data model, as read by `parseResult`, `detect` and
`translate`.  Fields the code tests for truthiness before use are `Option`s. -/

/-- One element of `response.translate.records`. -/
structure TRecord where
  sourceText : Option String
  targetText : String
deriving DecidableEq, Repr

/-- The `response.translate` object (`records` for parsing, `source` for
language detection). -/
structure TTranslate where
  records : List TRecord
  source : String
deriving DecidableEq, Repr

/-- One element of `response.suggest.data`.  `examples_json` is the raw JSON
string handed to `JSON.parse`. -/
structure TSuggestData where
  prx_ph_AmE : Option String
  examples_json : Option String
deriving DecidableEq, Repr

/-- The `response.suggest` object. -/
structure TSuggest where
  data : Option (List TSuggestData)
deriving DecidableEq, Repr

/-- One element of `response.dict.abstract`. -/
structure TAbstractItem where
  ps : Option String
  explanation : List String
deriving DecidableEq, Repr

/-- The `response.dict` object. -/
structure TDict where
  abstract : Option (List TAbstractItem)
deriving DecidableEq, Repr

/-- The JSON body of a provider response (`response.data` of the axios
response). -/
structure TData where
  translate : Option TTranslate
  dict : Option TDict
  suggest : Option TSuggest
deriving DecidableEq, Repr

/-- An axios response: JSON body plus HTTP status. -/
structure AxiosResponse where
  data : TData
  status : Nat
deriving DecidableEq, Repr

/-! Model of the JS `targetText.split(/\s*\/\s*/g)` call used for the main
meaning.  The separator regex matches a `/` together with the whitespace
around it; `jsSplitSlash` performs the left-to-right scan JS `split` does. -/

/-- Whether the separator regex `\s*\/\s*` matches at the head of `l`:
optional whitespace followed by a slash. -/
def sepMatch (l : List Char) : Bool :=
  (l.dropWhile Char.isWhitespace).head? == some '/'

/-- Consume one separator match at the head of `l` (greedy whitespace, the
slash, then greedy whitespace). -/
def sepConsume (l : List Char) : List Char :=
  ((l.dropWhile Char.isWhitespace).drop 1).dropWhile Char.isWhitespace

/-- Dropping a prefix never lengthens a list. -/
theorem dropWhile_length_le {α : Type} (p : α → Bool) (l : List α) :
    (l.dropWhile p).length ≤ l.length := by
  induction l with
  | nil => simp
  | cons c rest ih =>
    by_cases h : p c
    · rw [List.dropWhile_cons_of_pos h]
      exact Nat.le_succ_of_le ih
    · rw [List.dropWhile_cons_of_neg h]

/-- Consuming a separator match strictly shortens a non-empty list. -/
theorem sepConsume_length_lt (l : List Char) (hm : sepMatch l = true) :
    (sepConsume l).length < l.length := by
  have h2 : List.dropWhile Char.isWhitespace l ≠ [] := by
    intro hnil
    simp [sepMatch, hnil] at hm
  have h3 : 0 < (List.dropWhile Char.isWhitespace l).length :=
    List.length_pos.mpr h2
  calc (sepConsume l).length
      ≤ ((List.dropWhile Char.isWhitespace l).drop 1).length :=
        dropWhile_length_le _ _
    _ = (List.dropWhile Char.isWhitespace l).length - 1 := by
        simp [List.length_drop]
    _ < (List.dropWhile Char.isWhitespace l).length := by omega
    _ ≤ l.length := dropWhile_length_le _ _

/-- Left-to-right scan of JS `split(/\s*\/\s*/g)`: `acc` holds the current
segment reversed.  The `fuel` argument makes the recursion structural (each
step strictly shortens the list, so `l.length` fuel is always enough). -/
def jsSplitGo : Nat → List Char → List Char → List (List Char)
  | _, acc, [] => [acc.reverse]
  | 0, acc, _ :: _ => [acc.reverse]
  | fuel + 1, acc, c :: rest =>
    if sepMatch (c :: rest) then
      acc.reverse :: jsSplitGo fuel [] (sepConsume (c :: rest))
    else
      jsSplitGo fuel (c :: acc) rest

/-- JS `s.split(/\s*\/\s*/g)` on the character list of `s`. -/
def jsSplitSlash (s : String) : List (List Char) :=
  jsSplitGo s.data.length [] s.data

/-- Strip trailing whitespace from a character list. -/
def rstripWs : List Char → List Char
  | [] => []
  | c :: rest =>
    match rstripWs rest with
    | [] => if c.isWhitespace then [] else [c]
    | x :: xs => c :: x :: xs

/-- The first segment of a text split on `/` surrounded by optional
whitespace, stated directly: everything before the first slash with the
whitespace adjoining that slash removed, or the whole text when there is no
slash. -/
def firstSegSpec (l : List Char) : List Char :=
  if '/' ∈ l then rstripWs (l.takeWhile (fun c => c != '/')) else l

/-- A slash is not whitespace. -/
theorem slash_not_ws : Char.isWhitespace '/' = false := by decide

/-- Prepending to a list whose right-strip is non-empty commutes with the
right-strip. -/
theorem rstripWs_cons_of_ne (c : Char) (l : List Char) (h : rstripWs l ≠ []) :
    rstripWs (c :: l) = c :: rstripWs l := by
  cases hr : rstripWs l with
  | nil => exact absurd hr h
  | cons x xs => simp [rstripWs, hr]

/-- Prepending a non-whitespace character commutes with the right-strip. -/
theorem rstripWs_cons_not_ws (c : Char) (l : List Char)
    (h : c.isWhitespace = false) :
    rstripWs (c :: l) = c :: rstripWs l := by
  cases hr : rstripWs l with
  | nil => simp [rstripWs, hr, h]
  | cons x xs => simp [rstripWs, hr]

/-- The right-strip is empty exactly for all-whitespace lists. -/
theorem rstripWs_eq_nil_iff (l : List Char) :
    rstripWs l = [] ↔ l.all Char.isWhitespace := by
  induction l with
  | nil => simp [rstripWs]
  | cons c rest ih =>
    cases hr : rstripWs rest with
    | nil =>
      have hall : rest.all Char.isWhitespace := ih.mp hr
      by_cases hc : c.isWhitespace = true <;> simp [rstripWs, hr, hc, hall]
    | cons x xs =>
      have hall : rest.all Char.isWhitespace = false := by
        cases hb : rest.all Char.isWhitespace
        · rfl
        · exact absurd (ih.mpr hb) (by simp [hr])
      simp [rstripWs, hr, hall]

/-- Dropping the non-slash text of a list containing a slash reaches that
slash. -/
theorem dropWhileNe_head (l : List Char) (h : '/' ∈ l) :
    ∃ t, l.dropWhile (fun c => c != '/') = '/' :: t := by
  induction l with
  | nil => cases h
  | cons c rest ih =>
    by_cases hc : c = '/'
    · subst hc
      exact ⟨rest, by rw [List.dropWhile_cons_of_neg (by simp)]⟩
    · have hm : '/' ∈ rest := by
        rcases List.mem_cons.mp h with h1 | h1
        · exact absurd h1.symm hc
        · exact h1
      obtain ⟨t, ht⟩ := ih hm
      refine ⟨t, ?_⟩
      rw [List.dropWhile_cons_of_pos (by simp [hc])]
      exact ht

/-- Dropping whitespace skips over an all-whitespace chunk. -/
theorem dropWhile_ws_append (t u : List Char) (h : t.all Char.isWhitespace) :
    (t ++ u).dropWhile Char.isWhitespace = u.dropWhile Char.isWhitespace := by
  induction t with
  | nil => rfl
  | cons c rest ih =>
    rw [List.all_cons] at h
    rw [List.cons_append,
      List.dropWhile_cons_of_pos (by exact (Bool.and_eq_true _ _).mp h |>.1)]
    exact ih ((Bool.and_eq_true _ _).mp h).2

/-- A separator match at the head of a list means: a slash occurs, and the
text before the first slash is all whitespace. -/
theorem sepMatch_structure (l : List Char) (hm : sepMatch l = true) :
    '/' ∈ l ∧ (l.takeWhile (fun c => c != '/')).all Char.isWhitespace := by
  induction l with
  | nil => simp [sepMatch] at hm
  | cons c rest ih =>
    by_cases hc : c.isWhitespace = true
    · have hc' : c ≠ '/' := by
        intro h
        rw [h, slash_not_ws] at hc
        cases hc
      have hm' : sepMatch rest = true := by
        unfold sepMatch at hm ⊢
        rwa [List.dropWhile_cons_of_pos hc] at hm
      obtain ⟨h1, h2⟩ := ih hm'
      refine ⟨List.mem_cons_of_mem _ h1, ?_⟩
      rw [List.takeWhile_cons_of_pos (by simp [hc'])]
      simp [hc, h2]
    · have hcs : c = '/' := by
        unfold sepMatch at hm
        rw [List.dropWhile_cons_of_neg (by simpa using hc)] at hm
        simpa using hm
      subst hcs
      refine ⟨List.mem_cons_self _ _, ?_⟩
      rw [List.takeWhile_cons_of_neg (by simp)]
      simp

/-- At a separator match the current segment specification is empty. -/
theorem firstSegSpec_of_sepMatch (l : List Char) (hm : sepMatch l = true) :
    firstSegSpec l = [] := by
  obtain ⟨h1, h2⟩ := sepMatch_structure l hm
  unfold firstSegSpec
  rw [if_pos h1]
  exact (rstripWs_eq_nil_iff _).mpr h2

/-- Away from a separator match the head character belongs to the first
segment. -/
theorem firstSegSpec_cons_of_not_sepMatch (c : Char) (rest : List Char)
    (hm : sepMatch (c :: rest) = false) :
    firstSegSpec (c :: rest) = c :: firstSegSpec rest := by
  have hc : c ≠ '/' := by
    intro h
    subst h
    unfold sepMatch at hm
    rw [List.dropWhile_cons_of_neg (by simp [slash_not_ws])] at hm
    simp at hm
  by_cases hmem : '/' ∈ rest
  · have hmem' : '/' ∈ c :: rest := List.mem_cons_of_mem _ hmem
    unfold firstSegSpec
    rw [if_pos hmem', if_pos hmem,
      List.takeWhile_cons_of_pos (by simp [hc])]
    by_cases hws : c.isWhitespace = true
    · have hne : rstripWs (rest.takeWhile (fun c => c != '/')) ≠ [] := by
        intro hnil
        have hall : (rest.takeWhile (fun c => c != '/')).all Char.isWhitespace :=
          (rstripWs_eq_nil_iff _).mp hnil
        obtain ⟨t, ht⟩ := dropWhileNe_head rest hmem
        have htrue : sepMatch (c :: rest) = true := by
          unfold sepMatch
          rw [List.dropWhile_cons_of_pos hws]
          conv_lhs =>
            rw [← List.takeWhile_append_dropWhile (p := fun c => c != '/') (l := rest)]
          rw [dropWhile_ws_append _ _ hall, ht,
            List.dropWhile_cons_of_neg (by simp [slash_not_ws])]
          rfl
        rw [htrue] at hm
        cases hm
      exact rstripWs_cons_of_ne _ _ hne
    · exact rstripWs_cons_not_ws _ _ (by simpa using hws)
  · have hmem' : '/' ∉ c :: rest := by
      rw [List.mem_cons]
      rintro (h | h)
      · exact hc h.symm
      · exact hmem h
    unfold firstSegSpec
    rw [if_neg hmem', if_neg hmem]

/-- Head of the JS split scan: the accumulated segment followed by the first
segment of the remaining text. -/
theorem jsSplitGo_head (fuel : Nat) :
    ∀ l : List Char, l.length ≤ fuel → ∀ acc : List Char,
      (jsSplitGo fuel acc l).head? = some (acc.reverse ++ firstSegSpec l) := by
  induction fuel with
  | zero =>
    intro l hl acc
    have hnil : l = [] := List.length_eq_zero.mp (Nat.le_zero.mp hl)
    subst hnil
    simp [jsSplitGo, firstSegSpec]
  | succ fuel ih =>
    intro l hl acc
    cases l with
    | nil => simp [jsSplitGo, firstSegSpec]
    | cons c rest =>
      by_cases hm : sepMatch (c :: rest) = true
      · have hstep : jsSplitGo (fuel + 1) acc (c :: rest) =
            acc.reverse :: jsSplitGo fuel [] (sepConsume (c :: rest)) := by
          simp [jsSplitGo, hm]
        rw [hstep]
        simp [firstSegSpec_of_sepMatch _ hm]
      · have hstep : jsSplitGo (fuel + 1) acc (c :: rest) =
            jsSplitGo fuel (c :: acc) rest := by
          simp [jsSplitGo, hm]
        have hlen : rest.length ≤ fuel := by
          simp only [List.length_cons] at hl
          omega
        rw [hstep, ih rest hlen (c :: acc),
          firstSegSpec_cons_of_not_sepMatch c rest (by simpa using hm)]
        simp

/-- The first element of the modelled JS split is the specified first
segment. -/
theorem jsSplitSlash_head (s : String) :
    (jsSplitSlash s).headD [] = firstSegSpec s.data := by
  unfold jsSplitSlash
  have h := jsSplitGo_head s.data.length s.data le_rfl []
  cases hsplit : jsSplitGo s.data.length [] s.data with
  | nil => rw [hsplit] at h; cases h
  | cons a t =>
    rw [hsplit] at h
    simp only [List.head?_cons, Option.some.injEq, List.reverse_nil,
      List.nil_append] at h
    simpa using h


/-! Parsed translation result (`parseResult`).  `originalText` and
`mainMeaning` are unconditional assignments in the source, so they are plain
fields; the other three are set only under guards, so they are `Option`s. -/

/-- One entry of `result.examples`: `{source: item.sourceText, target: item.targetText}`. -/
structure ExamplePair where
  source : String
  target : String
deriving DecidableEq, Repr

/-- One entry of `result.detailedMeanings`:
`{pos: item.ps, meaning: item.explanation.join(", ")}`. -/
structure DetailedMeaning where
  pos : Option String
  meaning : String
deriving DecidableEq, Repr

/-- The normalized result object built by `parseResult`. -/
structure TranslateResult where
  originalText : String
  mainMeaning : String
  sPronunciation : Option String
  examples : Option (List ExamplePair)
  detailedMeanings : Option (List DetailedMeaning)
deriving DecidableEq, Repr

/-- Shape of `JSON.parse(examples_json)` as the code reads it: an object with
a `basic` array of source/target records. -/
structure ExampleItem where
  sourceText : String
  targetText : String
deriving DecidableEq, Repr

/-- Parsed `examples_json` content. -/
structure ExamplesJson where
  basic : List ExampleItem
deriving DecidableEq, Repr

/-- First element of `response.suggest.data` guarded exactly as in the source:
`response.suggest && response.suggest.data && response.suggest.data.length > 0`
(an empty JS array is truthy, so only the length test rules it out). -/
def firstSuggestData (response : TData) : Option TSuggestData :=
  match response.suggest with
  | none => none
  | some sg =>
    match sg.data with
    | none => none
    | some [] => none
    | some (d :: _) => some d

/-- The `mainMeaning` assignment:
`records[0].targetText.split(/\s*\/\s*/g)[0]` (a JS regex split always
returns at least one element, so index 0 is total). -/
def parsedMainMeaning (targetText : String) : String :=
  String.mk ((jsSplitSlash targetText).headD [])

/-- The original-text fallback:
`if (!result.originalText || result.originalText.length <= 0)` replaces an
absent or empty `sourceText` by the input text. -/
def fallbackOriginal (sourceText : Option String) (originalText : String) : String :=
  match sourceText with
  | none => originalText
  | some s => if s = "" then originalText else s

/-- The guarded `sPronunciation` assignment: set only when the first suggest
entry exists and its `prx_ph_AmE` is truthy (present and non-empty). -/
def parsedPronunciation (response : TData) : Option String :=
  match firstSuggestData response with
  | none => none
  | some d =>
    match d.prx_ph_AmE with
    | none => none
    | some s => if s = "" then none else some s

/-- The guarded `examples` assignment.  `jsonParse` models the external
`JSON.parse` builtin composed with the `.basic` projection; the outer `none`
means `JSON.parse` (or the `.basic.map`) threw, making `parseResult` itself
throw; the inner `none` means the field is simply not set. -/
def parsedExamples (jsonParse : String → Option ExamplesJson) (response : TData) :
    Option (Option (List ExamplePair)) :=
  match firstSuggestData response with
  | none => some none
  | some d =>
    match d.examples_json with
    | none => some none
    | some s =>
      if s = "" then some none
      else
        match jsonParse s with
        | none => none
        | some ej => some (some (ej.basic.map (fun item => ⟨item.sourceText, item.targetText⟩)))

/-- The guarded `detailedMeanings` assignment: set only when
`response.dict && response.dict.abstract && response.dict.abstract.length > 0`. -/
def parsedDetailedMeanings (response : TData) : Option (List DetailedMeaning) :=
  match response.dict with
  | none => none
  | some d =>
    match d.abstract with
    | none => none
    | some [] => none
    | some (i :: is) =>
      some ((i :: is).map (fun item => ⟨item.ps, String.intercalate ", " item.explanation⟩))

/-- The `parseResult(response, originalText)` method.  Returns `none` when the
JS code would throw: `response.translate` absent, `records` empty (so
`records[0]` is `undefined` and `.sourceText` faults), or `JSON.parse` of a
truthy `examples_json` fails. -/
def parseResult (jsonParse : String → Option ExamplesJson) (response : TData)
    (originalText : String) : Option TranslateResult :=
  match response.translate with
  | none => none
  | some tr =>
    match tr.records.head? with
    | none => none
    | some rec0 =>
      match parsedExamples jsonParse response with
      | none => none
      | some examples =>
        some
          { originalText := fallbackOriginal rec0.sourceText originalText
            mainMeaning := parsedMainMeaning rec0.targetText
            sPronunciation := parsedPronunciation response
            examples := examples
            detailedMeanings := parsedDetailedMeanings response }

/-- The `mainMeaning` computation keeps exactly the first slash-separated
segment. -/
theorem parsedMainMeaning_eq (targetText : String) :
    parsedMainMeaning targetText = String.mk (firstSegSpec targetText.data) := by
  unfold parsedMainMeaning
  rw [jsSplitSlash_head]

/-- Field-wise description of a successful `parseResult` run. -/
theorem parseResult_fields (jsonParse : String → Option ExamplesJson)
    (response : TData) (text : String) (tr : TTranslate) (rec0 : TRecord)
    (res : TranslateResult)
    (htr : response.translate = some tr) (hrec : tr.records.head? = some rec0)
    (hres : parseResult jsonParse response text = some res) :
    res.originalText = fallbackOriginal rec0.sourceText text ∧
    res.mainMeaning = parsedMainMeaning rec0.targetText ∧
    res.sPronunciation = parsedPronunciation response ∧
    parsedExamples jsonParse response = some res.examples ∧
    res.detailedMeanings = parsedDetailedMeanings response := by
  unfold parseResult at hres
  rw [htr] at hres
  simp only at hres
  rw [hrec] at hres
  simp only at hres
  cases hex : parsedExamples jsonParse response with
  | none => rw [hex] at hres; simp at hres
  | some ex =>
    rw [hex] at hres
    simp only [Option.some.injEq] at hres
    subst hres
    exact ⟨rfl, rfl, rfl, rfl, rfl⟩

/-- C4: for every input text, when `translate` receives a successful provider
response in which the returned original text is absent or empty, the
`originalText` field of the returned result equals the input text. -/
theorem c4_original_text_fallback (jsonParse : String → Option ExamplesJson)
    (response : TData) (text : String) (tr : TTranslate) (rec0 : TRecord)
    (res : TranslateResult)
    (htr : response.translate = some tr) (hrec : tr.records.head? = some rec0)
    (horig : rec0.sourceText = none ∨ rec0.sourceText = some "")
    (hres : parseResult jsonParse response text = some res) :
    res.originalText = text := by
  rw [(parseResult_fields jsonParse response text tr rec0 res htr hrec hres).1]
  rcases horig with h | h <;> simp [fallbackOriginal, h]

/-- Concrete provider response used by the C4 and C9 witnesses: the provider
omits the original text and offers a slash-separated meaning. -/
def respEx : TData :=
  { translate := some { records := [{ sourceText := none, targetText := "bon / bien" }],
                        source := "en" }
    dict := none
    suggest := none }

/-- Witness for C4 at `respEx`: the provider omitted `sourceText`, so the
result keeps the input text "hello". -/
theorem c4_original_text_fallback_witness :
    (⟨"hello", "bon", none, none, none⟩ : TranslateResult).originalText = "hello" :=
  c4_original_text_fallback (fun _ => none) respEx "hello"
    { records := [{ sourceText := none, targetText := "bon / bien" }], source := "en" }
    { sourceText := none, targetText := "bon / bien" }
    ⟨"hello", "bon", none, none, none⟩ rfl rfl (Or.inl rfl) (by decide)

/-- Presence condition of the parsed pronunciation field. -/
theorem parsedPronunciation_isSome (response : TData) :
    (parsedPronunciation response).isSome = true ↔
      ∃ d s, firstSuggestData response = some d ∧ d.prx_ph_AmE = some s ∧ s ≠ "" := by
  unfold parsedPronunciation
  cases hd : firstSuggestData response with
  | none => simp
  | some d =>
    cases hp : d.prx_ph_AmE with
    | none => simp [hp]
    | some s => by_cases hs : s = "" <;> simp [hp, hs]

/-- Presence condition of the parsed examples field. -/
theorem parsedExamples_isSome (jsonParse : String → Option ExamplesJson)
    (response : TData) (ex : Option (List ExamplePair))
    (hex : parsedExamples jsonParse response = some ex) :
    ex.isSome = true ↔
      ∃ d s, firstSuggestData response = some d ∧ d.examples_json = some s ∧ s ≠ "" := by
  unfold parsedExamples at hex
  cases hd : firstSuggestData response with
  | none =>
    rw [hd] at hex
    simp only [Option.some.injEq] at hex
    subst hex
    simp
  | some d =>
    rw [hd] at hex
    simp only at hex
    cases hj : d.examples_json with
    | none =>
      rw [hj] at hex
      simp only [Option.some.injEq] at hex
      subst hex
      simp [hj]
    | some s =>
      rw [hj] at hex
      simp only at hex
      by_cases hs : s = ""
      · rw [if_pos hs] at hex
        simp only [Option.some.injEq] at hex
        subst hex
        simp [hj, hs]
      · rw [if_neg hs] at hex
        cases hjp : jsonParse s with
        | none => rw [hjp] at hex; simp at hex
        | some ej =>
          rw [hjp] at hex
          simp only [Option.some.injEq] at hex
          subst hex
          simp [hj, hs]

/-- Presence condition of the parsed detailed-meanings field. -/
theorem parsedDetailedMeanings_isSome (response : TData) :
    (parsedDetailedMeanings response).isSome = true ↔
      ∃ dct items, response.dict = some dct ∧ dct.abstract = some items ∧ items ≠ [] := by
  unfold parsedDetailedMeanings
  cases hd : response.dict with
  | none => simp
  | some dct =>
    cases ha : dct.abstract with
    | none => simp [ha]
    | some items =>
      cases items with
      | nil => simp [ha]
      | cons i is => simp [ha]

/-- C5: every successful `translate` result has `originalText` and
`mainMeaning` (unconditional fields of `TranslateResult`); `sPronunciation`,
`examples` and `detailedMeanings` are present exactly when the corresponding
provider response fields are present and non-empty. -/
theorem c5_optional_fields (jsonParse : String → Option ExamplesJson)
    (response : TData) (text : String) (tr : TTranslate) (rec0 : TRecord)
    (res : TranslateResult)
    (htr : response.translate = some tr) (hrec : tr.records.head? = some rec0)
    (hres : parseResult jsonParse response text = some res) :
    (res.sPronunciation.isSome = true ↔
      ∃ d s, firstSuggestData response = some d ∧ d.prx_ph_AmE = some s ∧ s ≠ "") ∧
    (res.examples.isSome = true ↔
      ∃ d s, firstSuggestData response = some d ∧ d.examples_json = some s ∧ s ≠ "") ∧
    (res.detailedMeanings.isSome = true ↔
      ∃ dct items, response.dict = some dct ∧ dct.abstract = some items ∧ items ≠ []) := by
  obtain ⟨-, -, hpron, hex, hdet⟩ :=
    parseResult_fields jsonParse response text tr rec0 res htr hrec hres
  refine ⟨?_, ?_, ?_⟩
  · rw [hpron]
    exact parsedPronunciation_isSome response
  · exact parsedExamples_isSome jsonParse response res.examples hex
  · rw [hdet]
    exact parsedDetailedMeanings_isSome response

/-- Concrete provider response for the C5 witness: pronunciation present,
examples and dictionary absent. -/
def respC5 : TData :=
  { translate := some { records := [{ sourceText := some "hi", targetText := "salut" }],
                        source := "en" }
    dict := none
    suggest := some { data := some [{ prx_ph_AmE := some "haɪ", examples_json := none }] } }

/-- Witness for C5 at `respC5`: pronunciation present, the optional examples
and detailed meanings absent. -/
theorem c5_optional_fields_witness :
    ((some "haɪ" : Option String).isSome = true ↔
      ∃ d s, firstSuggestData respC5 = some d ∧ d.prx_ph_AmE = some s ∧ s ≠ "") ∧
    ((none : Option (List ExamplePair)).isSome = true ↔
      ∃ d s, firstSuggestData respC5 = some d ∧ d.examples_json = some s ∧ s ≠ "") ∧
    ((none : Option (List DetailedMeaning)).isSome = true ↔
      ∃ dct items, respC5.dict = some dct ∧ dct.abstract = some items ∧ items ≠ []) :=
  c5_optional_fields (fun _ => none) respC5 "hi"
    { records := [{ sourceText := some "hi", targetText := "salut" }], source := "en" }
    { sourceText := some "hi", targetText := "salut" }
    ⟨"hi", "salut", some "haɪ", none, none⟩ rfl rfl (by decide)

/-- C9: the `mainMeaning` of a parsed result is the first segment of the
provider target text split on `/` surrounded by optional whitespace; later
slash-separated alternatives are dropped. -/
theorem c9_main_meaning_first_segment (jsonParse : String → Option ExamplesJson)
    (response : TData) (text : String) (tr : TTranslate) (rec0 : TRecord)
    (res : TranslateResult)
    (htr : response.translate = some tr) (hrec : tr.records.head? = some rec0)
    (hres : parseResult jsonParse response text = some res) :
    res.mainMeaning = String.mk (firstSegSpec rec0.targetText.data) := by
  rw [(parseResult_fields jsonParse response text tr rec0 res htr hrec hres).2.1]
  exact parsedMainMeaning_eq rec0.targetText

/-- Witness for C9 at `respEx`: "bon / bien" keeps only "bon". -/
theorem c9_main_meaning_first_segment_witness :
    (⟨"hello", "bon", none, none, none⟩ : TranslateResult).mainMeaning =
      String.mk (firstSegSpec "bon / bien".data) :=
  c9_main_meaning_first_segment (fun _ => none) respEx "hello"
    { records := [{ sourceText := none, targetText := "bon / bien" }], source := "en" }
    { sourceText := none, targetText := "bon / bien" }
    ⟨"hello", "bon", none, none, none⟩ rfl rfl (by decide)

/-! Model of `requestHomePage` and `updateTokens`.  The tab environment is
the outcome of `chrome.tabs.create` plus the complete sequence of update
events the `chrome.tabs.onUpdated` listener would ever receive. -/

/-- A tab update event as seen by the listener: the updated tab's id and the
`tab.status` the callback reads. -/
structure TabEvent where
  id : Nat
  status : String
deriving DecidableEq, Repr

/-- Outcome of `requestHomePage`: resolve, one of the two rejections, or a
promise that never settles. -/
inductive HomePageResult where
  | resolved
  | rejectedCreate (msg : String)
  | rejectedLoad
  | pending
deriving DecidableEq, Repr

/-- A settled failure (rejection) of the home-page request. -/
def HomePageResult.isFailure : HomePageResult → Bool
  | .rejectedCreate _ => true
  | .rejectedLoad => true
  | _ => false

/-- The `requestHomePage` method.  The listener ignores events for other
tabs and events whose status is `"loading"`; at the first other event it
removes the tab (the `Bool` component) and resolves exactly when that
status is `"complete"`.  With no such event the promise never settles. -/
def requestHomePage (tabCreate : Except String Nat) (events : List TabEvent) :
    HomePageResult × Bool :=
  match tabCreate with
  | .error msg => (.rejectedCreate msg, false)
  | .ok tabId =>
    match events.find? (fun e => e.id == tabId && e.status != "loading") with
    | none => (.pending, false)
    | some e =>
      if e.status == "complete" then (.resolved, true) else (.rejectedLoad, true)

/-- A browser cookie as read through `chrome.cookies`. -/
structure Cookie where
  name : String
  value : String
deriving DecidableEq, Repr

/-- The stored request tokens (`this.qtk`, `this.qtv`). -/
structure Tokens where
  qtk : String
  qtv : String
deriving DecidableEq, Repr

/-- One iteration of the cookie loop of `updateTokens`. -/
def cookieStep (st : Tokens) (c : Cookie) : Tokens :=
  if c.name = "qtv" then { st with qtv := c.value }
  else if c.name = "qtk" then { st with qtk := c.value }
  else st

/-- The cookie-extraction loop of `updateTokens` over the whole cookie list
(a later cookie of the same name wins). -/
def applyCookies (st : Tokens) (cookies : List Cookie) : Tokens :=
  cookies.foldl cookieStep st

/-- The `updateTokens` method: request the home page, then read all cookies
of the base url and store `qtk`/`qtv`.  The cookie callback always resolves,
so the overall outcome is the one of `requestHomePage`; the tokens change
only when it resolved. -/
def updateTokens (tabCreate : Except String Nat) (events : List TabEvent)
    (cookies : List Cookie) (st : Tokens) : HomePageResult × Bool × Tokens :=
  match requestHomePage tabCreate events with
  | (.resolved, closed) => (.resolved, closed, applyCookies st cookies)
  | (r, closed) => (r, closed, st)

/-! Model of `translate(text, from, to)`.  The environment is the list of
successive axios responses (one per request sent); stateful effects are
returned as counts: requests sent and `updateTokens` calls made. -/

/-- The `MAX_RETRY` constant set in the constructor. -/
def MAX_RETRY : Nat := 1

/-- The structured error object thrown by `translate`. -/
structure ApiError where
  errorType : String
  errorCode : Nat
  errorMsg : String
  errorObj : AxiosResponse
deriving DecidableEq, Repr

/-- Outcome of a `translate` call.  `jsErr` stands for a plain JS rejection
outside the structured path: axios itself rejecting (no further response in
the environment) or `parseResult` throwing.  `refreshErr` is a rejection of
the retry's `updateTokens()` call propagating unwrapped, and `pending` a
never-settling `updateTokens()`. -/
inductive TranslateOutcome where
  | ok (result : TranslateResult)
  | apiErr (e : ApiError)
  | jsErr
  | refreshErr (r : HomePageResult)
  | pending
deriving DecidableEq, Repr

/-- One run of the recursive `translateOnce` closure, returning the outcome,
the number of requests that received a response and the number of
`updateTokens` calls.  `refresh` is the environment's outcome for the (at
most one, since `MAX_RETRY = 1`) `updateTokens()` call: when it does not
resolve, its rejection propagates out of `translate` and no retry request
is sent.  The success test is the source's
`response.data.dict || (response.data.translate && retryCount >= this.MAX_RETRY)`;
the retry branch requires `retryCount < this.MAX_RETRY`. -/
def translateGo (jsonParse : String → Option ExamplesJson) (text : String)
    (refresh : HomePageResult) :
    Nat → List AxiosResponse → TranslateOutcome × Nat × Nat
  | _, [] => (.jsErr, 0, 0)
  | retryCount, r :: rest =>
    if r.data.dict.isSome || (r.data.translate.isSome && decide (MAX_RETRY ≤ retryCount)) then
      match parseResult jsonParse r.data text with
      | some result => (.ok result, 1, 0)
      | none => (.jsErr, 1, 0)
    else if retryCount < MAX_RETRY then
      if refresh = .resolved then
        let out := translateGo jsonParse text refresh (retryCount + 1) rest
        (out.1, out.2.1 + 1, out.2.2 + 1)
      else if refresh = .pending then (.pending, 1, 1)
      else (.refreshErr refresh, 1, 1)
    else
      (.apiErr { errorType := "API_ERR", errorCode := r.status,
                 errorMsg := "Translate failed, please contact developers to report problem.",
                 errorObj := r }, 1, 0)

/-- The `translate` method: `translateOnce` started with `retryCount = 0`. -/
def translate (jsonParse : String → Option ExamplesJson) (text : String)
    (refresh : HomePageResult) (responses : List AxiosResponse) :
    TranslateOutcome × Nat × Nat :=
  translateGo jsonParse text refresh 0 responses

/-- First step of `translate` when the first response lacks `dict` and the
token refresh resolves: refresh tokens and retry. -/
theorem translateGo_retry_step (jsonParse : String → Option ExamplesJson)
    (text : String) (r1 : AxiosResponse) (rest : List AxiosResponse)
    (h1 : r1.data.dict = none) :
    translateGo jsonParse text .resolved 0 (r1 :: rest) =
      ((translateGo jsonParse text .resolved 1 rest).1,
       (translateGo jsonParse text .resolved 1 rest).2.1 + 1,
       (translateGo jsonParse text .resolved 1 rest).2.2 + 1) := by
  conv_lhs => unfold translateGo
  rw [h1]
  simp [MAX_RETRY]

/-- The retried attempt sends exactly one request and never refreshes
tokens again. -/
theorem translateGo_second_counts (jsonParse : String → Option ExamplesJson)
    (text : String) (refresh : HomePageResult) (r2 : AxiosResponse)
    (rest : List AxiosResponse) :
    (translateGo jsonParse text refresh 1 (r2 :: rest)).2.1 = 1 ∧
    (translateGo jsonParse text refresh 1 (r2 :: rest)).2.2 = 0 := by
  unfold translateGo
  by_cases hc : (r2.data.dict.isSome || (r2.data.translate.isSome && decide (MAX_RETRY ≤ 1))) = true
  · rw [if_pos hc]
    cases parseResult jsonParse r2.data text <;> exact ⟨rfl, rfl⟩
  · rw [if_neg hc]
    simp [MAX_RETRY]

/-- The retried attempt on a response with neither `dict` nor `translate`
throws the structured API error built from that response. -/
theorem translateGo_second_fail (jsonParse : String → Option ExamplesJson)
    (text : String) (refresh : HomePageResult) (r2 : AxiosResponse)
    (rest : List AxiosResponse)
    (h2d : r2.data.dict = none) (h2t : r2.data.translate = none) :
    (translateGo jsonParse text refresh 1 (r2 :: rest)).1 =
      .apiErr { errorType := "API_ERR", errorCode := r2.status,
                errorMsg := "Translate failed, please contact developers to report problem.",
                errorObj := r2 } := by
  unfold translateGo
  rw [h2d, h2t]
  simp [MAX_RETRY]

/-- C1: when the first provider response lacks the expected fields (`dict`
absent, the success test at `retryCount = 0`), `translate` refreshes
credentials and retries exactly once — two requests, one `updateTokens`
call — and when the retried response still lacks the expected fields
(neither `dict` nor `translate`), it rejects with the structured API error
whose `errorCode` is the HTTP status of that last response and whose
`errorObj` is that raw response. -/
theorem c1_translate_retry (jsonParse : String → Option ExamplesJson)
    (text : String) (r1 r2 : AxiosResponse) (rest : List AxiosResponse)
    (h1 : r1.data.dict = none) :
    (translate jsonParse text .resolved (r1 :: r2 :: rest)).2.1 = 2 ∧
    (translate jsonParse text .resolved (r1 :: r2 :: rest)).2.2 = 1 ∧
    (r2.data.dict = none → r2.data.translate = none →
      (translate jsonParse text .resolved (r1 :: r2 :: rest)).1 =
        .apiErr { errorType := "API_ERR", errorCode := r2.status,
                  errorMsg := "Translate failed, please contact developers to report problem.",
                  errorObj := r2 }) := by
  unfold translate
  rw [translateGo_retry_step jsonParse text r1 (r2 :: rest) h1]
  obtain ⟨hreq, hupd⟩ := translateGo_second_counts jsonParse text .resolved r2 rest
  refine ⟨by rw [hreq], by rw [hupd], ?_⟩
  intro h2d h2t
  exact translateGo_second_fail jsonParse text .resolved r2 rest h2d h2t

/-- A provider response with neither `dict` nor `translate`, used by the C1
witness. -/
def respFail : AxiosResponse :=
  { data := { translate := none, dict := none, suggest := none }, status := 500 }

/-- Witness for C1: two empty responses exhaust the single retry and produce
the structured API error carrying status 500 and the raw second response. -/
theorem c1_translate_retry_witness :
    (translate (fun _ => none) "hello" .resolved [respFail, respFail]).2.1 = 2 ∧
    (translate (fun _ => none) "hello" .resolved [respFail, respFail]).2.2 = 1 ∧
    (translate (fun _ => none) "hello" .resolved [respFail, respFail]).1 =
      .apiErr { errorType := "API_ERR", errorCode := 500,
                errorMsg := "Translate failed, please contact developers to report problem.",
                errorObj := respFail } := by
  have h := c1_translate_retry (fun _ => none) "hello" respFail respFail [] rfl
  exact ⟨h.1, h.2.1, h.2.2 rfl rfl⟩

/-- C6 counterexample: the tab is created successfully but no update event
with a non-loading status ever arrives, so the tab never reaches a loaded
state; the claim says the refresh fails, but the modelled `updateTokens`
neither rejects nor resolves — its promise stays pending forever. -/
theorem c6_refresh_counterexample :
    (∀ e ∈ ([] : List TabEvent), e.status ≠ "complete") ∧
    (updateTokens (Except.ok 1) [] [⟨"qtk", "k"⟩] ⟨"", ""⟩).1 = HomePageResult.pending ∧
    (updateTokens (Except.ok 1) [] [⟨"qtk", "k"⟩] ⟨"", ""⟩).1.isFailure = false := by
  refine ⟨?_, rfl, rfl⟩
  intro e he
  cases he

/-- C6 amended: credential refresh opens the tab, waits for the first
non-loading update of that tab, closes the tab, and on a `"complete"` status
extracts the `qtk`/`qtv` cookies; it fails when tab creation errors or when
that first update carries a status other than `"complete"`; when no
non-loading update ever arrives it never settles instead of failing. -/
theorem c6_refresh_amended (tabCreate : Except String Nat) (events : List TabEvent)
    (cookies : List Cookie) (st : Tokens) :
    (∀ msg, tabCreate = .error msg →
      updateTokens tabCreate events cookies st = (.rejectedCreate msg, false, st)) ∧
    (∀ tabId, tabCreate = .ok tabId →
      ∀ e, events.find? (fun e => e.id == tabId && e.status != "loading") = some e →
        (e.status = "complete" →
          updateTokens tabCreate events cookies st =
            (.resolved, true, applyCookies st cookies)) ∧
        (e.status ≠ "complete" →
          updateTokens tabCreate events cookies st = (.rejectedLoad, true, st))) ∧
    (∀ tabId, tabCreate = .ok tabId →
      events.find? (fun e => e.id == tabId && e.status != "loading") = none →
        updateTokens tabCreate events cookies st = (.pending, false, st)) := by
  refine ⟨?_, ?_, ?_⟩
  · intro msg hmsg
    subst hmsg
    rfl
  · intro tabId hid e hfind
    subst hid
    constructor
    · intro hc
      unfold updateTokens requestHomePage
      simp only
      rw [hfind]
      simp [hc]
    · intro hc
      unfold updateTokens requestHomePage
      simp only
      rw [hfind]
      simp [hc]
  · intro tabId hid hfind
    subst hid
    unfold updateTokens requestHomePage
    simp only
    rw [hfind]

/-- Witness for the amended C6 at concrete inputs: a completed load resolves
with the tab closed and the cookies extracted. -/
theorem c6_refresh_amended_witness :
    updateTokens (Except.ok 3) [⟨3, "complete"⟩] [⟨"qtk", "k"⟩, ⟨"qtv", "v"⟩] ⟨"", ""⟩ =
      (HomePageResult.resolved, true, ⟨"k", "v"⟩) := by
  have h := (c6_refresh_amended (Except.ok 3) [⟨3, "complete"⟩]
    [⟨"qtk", "k"⟩, ⟨"qtv", "v"⟩] ⟨"", ""⟩).2.1 3 rfl ⟨3, "complete"⟩ (by decide)
  exact (h.1 rfl).trans (by decide)

/-- Missing-name frame of the cookie loop for `qtk`. -/
theorem applyCookies_qtk_frame (st : Tokens) (cookies : List Cookie)
    (h : ∀ c ∈ cookies, c.name ≠ "qtk") :
    (applyCookies st cookies).qtk = st.qtk := by
  induction cookies generalizing st with
  | nil => rfl
  | cons c rest ih =>
    have hc := h c (List.mem_cons_self _ _)
    have hrest : ∀ c' ∈ rest, c'.name ≠ "qtk" :=
      fun c' hc' => h c' (List.mem_cons_of_mem _ hc')
    unfold applyCookies at *
    rw [List.foldl_cons, ih (cookieStep st c) hrest]
    unfold cookieStep
    by_cases hv : c.name = "qtv"
    · rw [if_pos hv]
    · rw [if_neg hv, if_neg hc]

/-- Missing-name frame of the cookie loop for `qtv`. -/
theorem applyCookies_qtv_frame (st : Tokens) (cookies : List Cookie)
    (h : ∀ c ∈ cookies, c.name ≠ "qtv") :
    (applyCookies st cookies).qtv = st.qtv := by
  induction cookies generalizing st with
  | nil => rfl
  | cons c rest ih =>
    have hc := h c (List.mem_cons_self _ _)
    have hrest : ∀ c' ∈ rest, c'.name ≠ "qtv" :=
      fun c' hc' => h c' (List.mem_cons_of_mem _ hc')
    unfold applyCookies at *
    rw [List.foldl_cons, ih (cookieStep st c) hrest]
    unfold cookieStep
    rw [if_neg hc]
    by_cases hk : c.name = "qtk"
    · rw [if_pos hk]
    · rw [if_neg hk]

/-- C10: after a resolved home-page request, `updateTokens` resolves whatever
the cookie list holds, and a stored token is overwritten only when a cookie
of the matching name is present: with no `"qtk"` cookie the stored `qtk` is
kept, and with no `"qtv"` cookie the stored `qtv` is kept. -/
theorem c10_update_tokens_frame (tabCreate : Except String Nat)
    (events : List TabEvent) (cookies : List Cookie) (st : Tokens)
    (hhome : (requestHomePage tabCreate events).1 = .resolved) :
    (updateTokens tabCreate events cookies st).1 = .resolved ∧
    ((∀ c ∈ cookies, c.name ≠ "qtk") →
      (updateTokens tabCreate events cookies st).2.2.qtk = st.qtk) ∧
    ((∀ c ∈ cookies, c.name ≠ "qtv") →
      (updateTokens tabCreate events cookies st).2.2.qtv = st.qtv) := by
  have hup : updateTokens tabCreate events cookies st =
      (.resolved, (requestHomePage tabCreate events).2, applyCookies st cookies) := by
    unfold updateTokens
    cases hr : requestHomePage tabCreate events with
    | mk r closed =>
      rw [hr] at hhome
      simp only at hhome
      subst hhome
      rfl
  rw [hup]
  exact ⟨rfl, fun h => applyCookies_qtk_frame st cookies h,
    fun h => applyCookies_qtv_frame st cookies h⟩

/-- Witness for C10: with only a `qtv` cookie present the stored `qtk`
survives and the call resolves. -/
theorem c10_update_tokens_frame_witness :
    (updateTokens (Except.ok 7) [⟨7, "complete"⟩] [⟨"qtv", "v2"⟩] ⟨"k0", "v0"⟩).1 =
      HomePageResult.resolved ∧
    (updateTokens (Except.ok 7) [⟨7, "complete"⟩] [⟨"qtv", "v2"⟩] ⟨"k0", "v0"⟩).2.2.qtk =
      "k0" := by
  have h := c10_update_tokens_frame (Except.ok 7) [⟨7, "complete"⟩]
    [⟨"qtv", "v2"⟩] ⟨"k0", "v0"⟩ (by decide)
  exact ⟨h.1, h.2.1 (by decide)⟩

/-! Model of `detect(text)`. -/

/-- The `BASE_URL` constant of the constructor. -/
def BASE_URL : String := "https://fanyi.qq.com"

/-- A translate-endpoint request body as `detect` builds it
(`URLSearchParams` with `source`, `target`, `sourceText`; a key missing from
the map would interpolate as the JS string "undefined"). -/
structure DetectRequest where
  source : String
  target : String
  sourceText : String
deriving DecidableEq, Repr

/-- The `detect` method: one request with `source = LAN_TO_CODE.get("auto")`
and `target = LAN_TO_CODE.get("zh-CN")`, whose response's
`translate.source` code is mapped back through `CODE_TO_LAN`.  The request
list records every request sent; the outer `Option` of the second component
is `none` when the JS code would throw (`response.data.translate` absent),
the inner `Option` is the possibly-`undefined` canonical tag. -/
def detect (text : String) (response : TData) :
    List DetectRequest × Option (Option String) :=
  ([{ source := (lanToCode "auto").getD "undefined"
      target := (lanToCode "zh-CN").getD "undefined"
      sourceText := text }],
   match response.translate with
   | none => none
   | some tr => some (codeToLan tr.source))

/-- C8: `detect` sends exactly one request, whose source parameter is the
provider code of "auto" and whose target is the fixed provider code of
"zh-CN", and it returns the canonical tag obtained by reverse-mapping the
source code reported in the provider response. -/
theorem c8_detect_single_request (text : String) (response : TData)
    (tr : TTranslate) (htr : response.translate = some tr) :
    (detect text response).1.length = 1 ∧
    (∀ req ∈ (detect text response).1,
      lanToCode "auto" = some req.source ∧
      lanToCode "zh-CN" = some req.target ∧
      req.sourceText = text) ∧
    (detect text response).2 = some (codeToLan tr.source) := by
  refine ⟨rfl, ?_, ?_⟩
  · intro req hreq
    have hreq' : req = { source := (lanToCode "auto").getD "undefined"
                         target := (lanToCode "zh-CN").getD "undefined"
                         sourceText := text } := by
      simpa [detect] using hreq
    subst hreq'
    exact ⟨rfl, rfl, rfl⟩
  · simp [detect, htr]

/-- A provider response reporting source code "jp", for the C8 witness. -/
def respC8 : TData :=
  { translate := some { records := [], source := "jp" }, dict := none, suggest := none }

/-- Witness for C8 at `respC8`: one request, and "jp" reverse-maps to the
canonical "ja". -/
theorem c8_detect_single_request_witness :
    (detect "hello" respC8).1.length = 1 ∧
    (detect "hello" respC8).2 = some (codeToLan "jp") :=
  ⟨(c8_detect_single_request "hello" respC8 { records := [], source := "jp" } rfl).1,
   (c8_detect_single_request "hello" respC8 { records := [], source := "jp" } rfl).2.2⟩

/-! Model of `pronounce(text, language, speed)`.  The audio element is
modelled by its `paused` flag and by the ordered trace of actions the call
performs on it; cookie lookups, play outcomes and the retry's
`requestHomePage` behaviour form the environment. -/

/-- Actions performed during `pronounce`, in order: pausing the audio,
setting its source url, starting playback, and the retry's home-page
request. -/
inductive AudioAction where
  | pause
  | setSrc (url : String)
  | play
  | homeRequest
deriving DecidableEq, Repr

/-- The audio element state `pronounce` reads (`AUDIO.paused`). -/
structure AudioState where
  paused : Bool
deriving DecidableEq, Repr

/-- What one `pronounceOnce` attempt observes: the `fy_guid` cookie lookup
result and whether `AUDIO.play()` resolves. -/
structure PronAttemptEnv where
  guidCookie : Option Cookie
  playOk : Bool
deriving DecidableEq, Repr

/-- The cause caught by the `catch` of `pronounceOnce`: the
"Tencent guid not found!" rejection or a playback rejection. -/
inductive PronError where
  | guidNotFound
  | playError
deriving DecidableEq, Repr

/-- Outcome of a `pronounce` call.  A rejection of the retry's
`requestHomePage` propagates unwrapped (`rawErr`); a never-settling
home-page request leaves `pronounce` pending. -/
inductive PronOutcome where
  | ok
  | apiErr (errorType : String) (errorCode : Nat) (errorMsg : String)
      (errorObj : PronError)
  | rawErr (r : HomePageResult)
  | pending
deriving DecidableEq, Repr

/-- The TTS url of `pronounceOnce`.  `enc` models the external
`encodeURIComponent` builtin; a canonical tag missing from `LAN_TO_CODE`
would interpolate as the JS string "undefined". -/
def ttsUrl (enc : String → String) (text lang guid : String) : String :=
  BASE_URL ++ "/api/tts?platform=PC_Website&lang=" ++
    (lanToCode lang).getD "undefined" ++ "&text=" ++ enc text ++ "&guid=" ++ guid

/-- One `pronounceOnce` attempt: the error the `catch` receives (`none` on
success) and the audio actions performed.  A missing or empty `fy_guid`
cookie rejects before the audio element is touched. -/
def pronounceAttempt (enc : String → String) (env : PronAttemptEnv)
    (text lang : String) : Option PronError × List AudioAction :=
  match env.guidCookie with
  | none => (some .guidNotFound, [])
  | some cookie =>
    if cookie.value = "" then (some .guidNotFound, [])
    else
      let url := ttsUrl enc text lang cookie.value
      if env.playOk then (none, [.setSrc url, .play])
      else (some .playError, [.setSrc url, .play])

/-- Environment of one `pronounce` call: what each of the at most two
attempts observes, and the tab behaviour of the at most one
`requestHomePage` retry. -/
structure PronEnv where
  attempt1 : PronAttemptEnv
  tabCreate : Except String Nat
  tabEvents : List TabEvent
  attempt2 : PronAttemptEnv
deriving Repr

/-- The `pronounce` method: `stopPronounce` (pause when playing), then
`pronounceOnce`, with one `requestHomePage`-then-retry on a caught failure.
Returns the outcome, the ordered action trace, the stored tokens after the
call (the retry path calls `requestHomePage`, never `updateTokens`, so they
pass through untouched), and the number of attempts made. -/
def pronounce (enc : String → String) (env : PronEnv) (text lang : String)
    (audio : AudioState) (st : Tokens) :
    PronOutcome × List AudioAction × Tokens × Nat :=
  let pauseTrace : List AudioAction := if audio.paused then [] else [.pause]
  let a1 := pronounceAttempt enc env.attempt1 text lang
  match a1.1 with
  | none => (.ok, pauseTrace ++ a1.2, st, 1)
  | some _ =>
    match (requestHomePage env.tabCreate env.tabEvents).1 with
    | .resolved =>
      let a2 := pronounceAttempt enc env.attempt2 text lang
      match a2.1 with
      | none => (.ok, pauseTrace ++ a1.2 ++ [.homeRequest] ++ a2.2, st, 2)
      | some err2 =>
        (.apiErr "API_ERR" 0
          "Pronounce failed, please contact developers to report problem." err2,
         pauseTrace ++ a1.2 ++ [.homeRequest] ++ a2.2, st, 2)
    | .pending => (.pending, pauseTrace ++ a1.2 ++ [.homeRequest], st, 1)
    | r => (.rawErr r, pauseTrace ++ a1.2 ++ [.homeRequest], st, 1)

/-- An attempt only touches `setSrc` and `play`, never `pause`. -/
theorem pause_not_in_attempt (enc : String → String) (env : PronAttemptEnv)
    (text lang : String) :
    AudioAction.pause ∉ (pronounceAttempt enc env text lang).2 := by
  unfold pronounceAttempt
  cases env.guidCookie with
  | none => simp
  | some cookie =>
    by_cases hv : cookie.value = ""
    · simp [hv]
    · by_cases hp : env.playOk = true <;> simp [hv, hp]

/-- Shape of the `pronounce` trace: the conditional initial pause followed
by a pause-free tail. -/
theorem pronounce_trace_shape (enc : String → String) (env : PronEnv)
    (text lang : String) (audio : AudioState) (st : Tokens) :
    ∃ tail, (pronounce enc env text lang audio st).2.1 =
        (if audio.paused then [] else [AudioAction.pause]) ++ tail ∧
      AudioAction.pause ∉ tail := by
  unfold pronounce
  simp only
  have h1 := pause_not_in_attempt enc env.attempt1 text lang
  have h2 := pause_not_in_attempt enc env.attempt2 text lang
  cases ha1 : (pronounceAttempt enc env.attempt1 text lang).1 with
  | none =>
    exact ⟨(pronounceAttempt enc env.attempt1 text lang).2, rfl, h1⟩
  | some e1 =>
    cases hr : (requestHomePage env.tabCreate env.tabEvents).1 with
    | resolved =>
      cases ha2 : (pronounceAttempt enc env.attempt2 text lang).1 with
      | none =>
        refine ⟨(pronounceAttempt enc env.attempt1 text lang).2 ++
          [AudioAction.homeRequest] ++ (pronounceAttempt enc env.attempt2 text lang).2,
          by simp, ?_⟩
        simp [h1, h2]
      | some e2 =>
        refine ⟨(pronounceAttempt enc env.attempt1 text lang).2 ++
          [AudioAction.homeRequest] ++ (pronounceAttempt enc env.attempt2 text lang).2,
          by simp, ?_⟩
        simp [h1, h2]
    | pending =>
      refine ⟨(pronounceAttempt enc env.attempt1 text lang).2 ++
        [AudioAction.homeRequest], by simp, ?_⟩
      simp [h1]
    | rejectedCreate msg =>
      refine ⟨(pronounceAttempt enc env.attempt1 text lang).2 ++
        [AudioAction.homeRequest], by simp, ?_⟩
      simp [h1]
    | rejectedLoad =>
      refine ⟨(pronounceAttempt enc env.attempt1 text lang).2 ++
        [AudioAction.homeRequest], by simp, ?_⟩
      simp [h1]

/-- C7: a `pronounce` call made while audio is playing first pauses the
current playback — the action trace begins with `pause` — and no later
pause occurs, so the new `setSrc` and `play` all come after it. -/
theorem c7_pause_before_play (enc : String → String) (env : PronEnv)
    (text lang : String) (audio : AudioState) (st : Tokens)
    (hplaying : audio.paused = false) :
    ∃ tail, (pronounce enc env text lang audio st).2.1 = AudioAction.pause :: tail ∧
      AudioAction.pause ∉ tail := by
  obtain ⟨tail, htr, hmem⟩ := pronounce_trace_shape enc env text lang audio st
  rw [hplaying] at htr
  exact ⟨tail, by simpa using htr, hmem⟩

/-- Environment for the C7 witness: the first attempt succeeds at once. -/
def envC7 : PronEnv :=
  { attempt1 := { guidCookie := some { name := "fy_guid", value := "g" }, playOk := true }
    tabCreate := .ok 1
    tabEvents := []
    attempt2 := { guidCookie := none, playOk := true } }

/-- Witness for C7 with the audio element playing. -/
theorem c7_pause_before_play_witness :
    ∃ tail, (pronounce (fun s => s) envC7 "hi" "en" ⟨false⟩ ⟨"", ""⟩).2.1 =
        AudioAction.pause :: tail ∧
      AudioAction.pause ∉ tail :=
  c7_pause_before_play (fun s => s) envC7 "hi" "en" ⟨false⟩ ⟨"", ""⟩ rfl

/-- C3 amended: when an attempt of `pronounce` fails, the adapter
re-requests the provider home page — refreshing the site cookies, but not
extracting or storing the `qtk`/`qtv` tokens — and retries exactly once;
when the retried attempt also fails, `pronounce` rejects with the
structured error: kind "API_ERR", code 0, the human message, and the raw
cause of the second failure. -/
theorem c3_pronounce_retry_amended (enc : String → String) (env : PronEnv)
    (text lang : String) (audio : AudioState) (st : Tokens)
    (err1 err2 : PronError)
    (h1 : (pronounceAttempt enc env.attempt1 text lang).1 = some err1)
    (hhome : (requestHomePage env.tabCreate env.tabEvents).1 = .resolved)
    (h2 : (pronounceAttempt enc env.attempt2 text lang).1 = some err2) :
    (pronounce enc env text lang audio st).1 =
      .apiErr "API_ERR" 0
        "Pronounce failed, please contact developers to report problem." err2 ∧
    (pronounce enc env text lang audio st).2.2.2 = 2 ∧
    (pronounce enc env text lang audio st).2.2.1 = st ∧
    AudioAction.homeRequest ∈ (pronounce enc env text lang audio st).2.1 := by
  unfold pronounce
  simp only
  rw [h1, hhome, h2]
  exact ⟨rfl, rfl, rfl, by simp⟩

/-- Environment for the C3 witness: both attempts fail for want of the
`fy_guid` cookie, the home-page refresh succeeds. -/
def envC3w : PronEnv :=
  { attempt1 := { guidCookie := none, playOk := true }
    tabCreate := .ok 1
    tabEvents := [{ id := 1, status := "complete" }]
    attempt2 := { guidCookie := none, playOk := true } }

/-- Witness for the amended C3: both attempts fail, one home-page request
happens, the structured error carries the second cause, the tokens pass
through. -/
theorem c3_pronounce_retry_amended_witness :
    (pronounce (fun s => s) envC3w "hi" "en" ⟨true⟩ ⟨"", ""⟩).1 =
      .apiErr "API_ERR" 0
        "Pronounce failed, please contact developers to report problem."
        PronError.guidNotFound ∧
    (pronounce (fun s => s) envC3w "hi" "en" ⟨true⟩ ⟨"", ""⟩).2.2.2 = 2 ∧
    (pronounce (fun s => s) envC3w "hi" "en" ⟨true⟩ ⟨"", ""⟩).2.2.1 = ⟨"", ""⟩ ∧
    AudioAction.homeRequest ∈ (pronounce (fun s => s) envC3w "hi" "en" ⟨true⟩ ⟨"", ""⟩).2.1 :=
  c3_pronounce_retry_amended (fun s => s) envC3w "hi" "en" ⟨true⟩ ⟨"", ""⟩
    PronError.guidNotFound PronError.guidNotFound rfl rfl rfl

/-- Environment for the C3 counterexample: the first attempt fails, the
home-page request succeeds, the retry succeeds. -/
def envC3 : PronEnv :=
  { attempt1 := { guidCookie := none, playOk := true }
    tabCreate := .ok 1
    tabEvents := [{ id := 1, status := "complete" }]
    attempt2 := { guidCookie := some { name := "fy_guid", value := "g" }, playOk := true } }

/-- C3 counterexample: after the failed first attempt the cookie jar holds
fresh `qtk`/`qtv` cookies, so the full credential refresh the claim
requires — the spec's Credential Refresh extracts the two named cookie
values — would store `"newqtk"` as the `qtk` token; the code's retry path
only calls `requestHomePage`, and the stored tokens after `pronounce` are
unchanged (`""` ≠ `"newqtk"`). -/
theorem c3_pronounce_counterexample :
    (applyCookies ⟨"", ""⟩ [⟨"qtk", "newqtk"⟩, ⟨"qtv", "newqtv"⟩]).qtk = "newqtk" ∧
    (pronounce (fun s => s) envC3 "hi" "en" ⟨true⟩ ⟨"", ""⟩).1 = PronOutcome.ok ∧
    (pronounce (fun s => s) envC3 "hi" "en" ⟨true⟩ ⟨"", ""⟩).2.2.1.qtk = "" ∧
    ("" : String) ≠ "newqtk" := by
  refine ⟨rfl, ?_, ?_, by decide⟩ <;> rfl

end Tencent
